import Mathlib

/-!
Verification of the NACA 4-digit airfoil generator.

The development shallowly embeds the two components of the program:

* `parse_naca_4digit` — validation and decoding of the 4-character
  designation string (source: `parse_naca_4digit`);
* `naca_4digit_coordinates` — cosine-spaced station sampling, the NACA
  thickness polynomial, the piecewise camber line and its slope, the
  normal-direction surface offset, and the final chord scaling
  (source: `naca_4digit_coordinates`);
* `need_connecting_line` — the leading/trailing-edge closing-segment test of
  the DXF sink (source: `create_dxf_airfoil`);
* `main_validate` — the input validation performed by the CLI entry point
  (source: `main`).

Floating-point arithmetic of the source is embedded as exact real
arithmetic; numpy array operations become `List.map` over the station
indices.
-/

/-- The digit test of Python's `str.isdigit`, which is Unicode-aware: it
returns `True` for every character with the Unicode digit property, not only
for the ASCII digits `'0'`–`'9'`.  We model the test on the ASCII digits
together with the Arabic-Indic digit block U+0660–U+0669 as a representative
non-ASCII decimal-digit range; the remaining Unicode digit blocks behave like
the Arabic-Indic one and are omitted from the model. -/
def py_isdigit_char (c : Char) : Bool :=
  c.isDigit || (0x660 ≤ c.toNat && c.toNat ≤ 0x669)

/-- Python's `str.isdigit`: true iff the string is nonempty and every
character passes the digit test (source line 29: `naca_string.isdigit()`). -/
def py_str_isdigit (s : String) : Bool :=
  !s.data.isEmpty && s.data.all py_isdigit_char

/-- The numeric value Python's `int` assigns to a single decimal-digit
character (ASCII or Arabic-Indic, matching the fragment modelled by
`py_isdigit_char`). -/
def py_digit_val (c : Char) : ℕ :=
  if c.isDigit then c.toNat - 48
  else if 0x660 ≤ c.toNat && c.toNat ≤ 0x669 then c.toNat - 0x660
  else 0

/-- Source `parse_naca_4digit` (lines 29–36): reject unless the string has
exactly 4 characters and `isdigit` holds, then decode digit 0 as the maximum
camber percentage, digit 1 as the camber position in tenths, and digits 2–3
as the two-digit thickness percentage.  The `ValueError` raise is embedded as
`none`. -/
def parse_naca_4digit (s : String) : Option (ℕ × ℕ × ℕ) :=
  if s.length = 4 ∧ py_str_isdigit s then
    some (py_digit_val (s.data.getD 0 ' '),
          py_digit_val (s.data.getD 1 ' '),
          10 * py_digit_val (s.data.getD 2 ' ') + py_digit_val (s.data.getD 3 ' '))
  else none

/-- Modelled from the spec: the re-encoding direction of the round-trip law
(spec §8) — `maxCamberPercent` as one digit, `camberPositionTenths` as one
digit, `thicknessPercent` as a two-digit number.  The source has no encoder;
this definition follows the spec's words. -/
def reencode_spec (mi pt ti : ℕ) : String :=
  ⟨[Char.ofNat (48 + mi), Char.ofNat (48 + pt),
    Char.ofNat (48 + ti / 10), Char.ofNat (48 + ti % 10)]⟩

/-- The designation `"2412"` written with Arabic-Indic digits
(U+0662 U+0664 U+0661 U+0662): a 4-character all-digit string, in Python's
Unicode sense, containing no ASCII character. -/
def arabicIndicNaca : String :=
  ⟨[Char.ofNat 0x662, Char.ofNat 0x664, Char.ofNat 0x661, Char.ofNat 0x662]⟩

theorem toNat_bounds_of_isDigit {c : Char} (h : c.isDigit = true) :
    48 ≤ c.toNat ∧ c.toNat ≤ 57 := by
  simp [Char.isDigit] at h
  exact h

theorem py_digit_val_of_isDigit {c : Char} (h : c.isDigit = true) :
    py_digit_val c = c.toNat - 48 := by
  simp [py_digit_val, h]

theorem py_digit_val_lt_ten {c : Char} (h : c.isDigit = true) :
    py_digit_val c < 10 := by
  obtain ⟨h1, h2⟩ := toNat_bounds_of_isDigit h
  rw [py_digit_val_of_isDigit h]
  omega

theorem digit_char_roundtrip {c : Char} (h : c.isDigit = true) :
    Char.ofNat (48 + py_digit_val c) = c := by
  obtain ⟨h1, _⟩ := toNat_bounds_of_isDigit h
  rw [py_digit_val_of_isDigit h]
  have : 48 + (c.toNat - 48) = c.toNat := by omega
  rw [this, Char.ofNat_toNat]

/-- C2: for every string of exactly 4 ASCII digit characters, `parse`
succeeds and re-encoding the returned parameters (camber digit, position
digit, two-digit thickness) reproduces the original string exactly. -/
theorem C2_parse_roundtrip (s : String) (h4 : s.length = 4)
    (hd : ∀ c ∈ s.data, c.isDigit = true) :
    ∃ mi pt ti, parse_naca_4digit s = some (mi, pt, ti) ∧
      reencode_spec mi pt ti = s := by
  obtain ⟨data⟩ := s
  have hlen : data.length = 4 := h4
  match data, hlen with
  | [a, b, c, d], _ =>
    have ha : a.isDigit = true := hd a (by simp)
    have hb : b.isDigit = true := hd b (by simp)
    have hc : c.isDigit = true := hd c (by simp)
    have hdd : d.isDigit = true := hd d (by simp)
    have hguard : (String.mk [a, b, c, d]).length = 4 ∧
        py_str_isdigit (String.mk [a, b, c, d]) = true := by
      refine ⟨h4, ?_⟩
      simp [py_str_isdigit, py_isdigit_char, ha, hb, hc, hdd]
    refine ⟨py_digit_val a, py_digit_val b,
      10 * py_digit_val c + py_digit_val d, ?_, ?_⟩
    · rw [parse_naca_4digit, if_pos hguard]
      rfl
    · have hcv : (10 * py_digit_val c + py_digit_val d) / 10 = py_digit_val c := by
        have := py_digit_val_lt_ten hdd
        omega
      have hdv : (10 * py_digit_val c + py_digit_val d) % 10 = py_digit_val d := by
        have := py_digit_val_lt_ten hdd
        omega
      rw [reencode_spec, hcv, hdv, digit_char_roundtrip ha, digit_char_roundtrip hb,
        digit_char_roundtrip hc, digit_char_roundtrip hdd]

/-- Witness for C2 at the concrete designation `"2412"`. -/
theorem C2_parse_roundtrip_witness :
    ∃ mi pt ti, parse_naca_4digit "2412" = some (mi, pt, ti) ∧
      reencode_spec mi pt ti = "2412" :=
  C2_parse_roundtrip "2412" (by decide) (by decide)

/-- C3 counterexample: the four-character Arabic-Indic string `"٢٤١٢"`
contains no ASCII digit (indeed only non-ASCII characters), yet `parse`
accepts it and constructs the parameters (2, 4, 12), because Python's
`str.isdigit` is Unicode-aware.  So `parse` does not fail on every input
that is not made of 4 ASCII digit characters. -/
theorem C3_counterexample :
    parse_naca_4digit arabicIndicNaca = some (2, 4, 12) ∧
    ∀ c ∈ arabicIndicNaca.data, c.isDigit = false ∧ 127 < c.toNat := by
  decide

/-- C3 (amended): `parse` fails exactly when the input is not a 4-character
string of Unicode decimal digits (Python's `isdigit`); in particular
`parse "241"`, `parse "24123"` and `parse "24a2"` all fail, while length-4
ASCII-digit strings — and also length-4 non-ASCII decimal-digit strings —
are accepted. -/
theorem C3_parse_guard :
    (∀ s : String,
      (parse_naca_4digit s).isSome = true ↔ s.length = 4 ∧ py_str_isdigit s = true) ∧
    parse_naca_4digit "241" = none ∧
    parse_naca_4digit "24123" = none ∧
    parse_naca_4digit "24a2" = none := by
  refine ⟨fun s => ?_, by decide, by decide, by decide⟩
  constructor
  · intro h
    by_contra hcond
    rw [parse_naca_4digit, if_neg hcond] at h
    simp at h
  · intro hcond
    rw [parse_naca_4digit, if_pos hcond]
    rfl

/-- Source line 63: the NACA half-thickness distribution at normalized
station `x`, for normalized thickness `t`:
`yt = 5 t (0.2969 √x − 0.1260 x − 0.3516 x² + 0.2843 x³ − 0.1015 x⁴)`. -/
noncomputable def yt_fun (t x : ℝ) : ℝ :=
  5 * t * (0.2969 * Real.sqrt x - 0.1260 * x - 0.3516 * x ^ 2
    + 0.2843 * x ^ 3 - 0.1015 * x ^ 4)

/-- Source line 72: camber height forward of the maximum-camber station. -/
noncomputable def yc_fwd (m p x : ℝ) : ℝ := m / p ^ 2 * (2 * p * x - x ^ 2)

/-- Source line 73: camber slope forward of the maximum-camber station. -/
noncomputable def dyc_fwd (m p x : ℝ) : ℝ := 2 * m / p ^ 2 * (p - x)

/-- Source line 77: camber height aft of the maximum-camber station. -/
noncomputable def yc_aft (m p x : ℝ) : ℝ := m / (1 - p) ^ 2 * ((1 - 2 * p) + 2 * p * x - x ^ 2)

/-- Source line 78: camber slope aft of the maximum-camber station. -/
noncomputable def dyc_aft (m p x : ℝ) : ℝ := 2 * m / (1 - p) ^ 2 * (p - x)

/-- Source lines 66–78: the camber line.  The array starts as zeros and is
filled only when `m > 0 and p > 0`; the masks `x <= p` / `x > p` select the
forward / aft branch. -/
noncomputable def yc_fun (m p x : ℝ) : ℝ :=
  if 0 < m ∧ 0 < p then (if x ≤ p then yc_fwd m p x else yc_aft m p x) else 0

/-- Source lines 67–78: the camber-line slope, with the same branch
structure as `yc_fun`. -/
noncomputable def dyc_dx_fun (m p x : ℝ) : ℝ :=
  if 0 < m ∧ 0 < p then (if x ≤ p then dyc_fwd m p x else dyc_aft m p x) else 0

/-- Source line 81: local surface angle `θ = arctan(dyc/dx)`. -/
noncomputable def theta_fun (m p x : ℝ) : ℝ := Real.arctan (dyc_dx_fun m p x)

/-- Source line 84: upper-surface x before chord scaling. -/
noncomputable def xu_fun (m p t x : ℝ) : ℝ :=
  x - yt_fun t x * Real.sin (theta_fun m p x)

/-- Source line 85: upper-surface y before chord scaling. -/
noncomputable def yu_fun (m p t x : ℝ) : ℝ :=
  yc_fun m p x + yt_fun t x * Real.cos (theta_fun m p x)

/-- Source line 88: lower-surface x before chord scaling. -/
noncomputable def xl_fun (m p t x : ℝ) : ℝ :=
  x + yt_fun t x * Real.sin (theta_fun m p x)

/-- Source line 89: lower-surface y before chord scaling. -/
noncomputable def yl_fun (m p t x : ℝ) : ℝ :=
  yc_fun m p x - yt_fun t x * Real.cos (theta_fun m p x)

/-- Source lines 59–60: the i-th cosine-spaced station of an `n`-point
sampling: `beta = linspace(0, π, n)`, `x = (1 − cos beta)/2`.  For `n = 1`
numpy's `linspace` yields the single angle `0`, which the `ℕ`-subtraction
and division-by-zero conventions reproduce (`π·0/0 = 0`). -/
noncomputable def stationX (n i : ℕ) : ℝ :=
  (1 - Real.cos (Real.pi * i / ((n - 1 : ℕ) : ℝ))) / 2

/-- The full station sequence `x` of source line 60. -/
noncomputable def x_stations (n : ℕ) : List ℝ :=
  (List.range n).map (stationX n)

/-- The four coordinate arrays returned by source `naca_4digit_coordinates`
(line 97): `(xu, yu, xl, yl)`, named as in the source. -/
structure Coords where
  xu : List ℝ
  yu : List ℝ
  xl : List ℝ
  yl : List ℝ

/-- Source lines 51–97 after parsing: normalize the three digit parameters
(`m = m/100`, `p = p/10`, `t = t/100`), evaluate the four surface arrays at
every cosine station, and scale each coordinate by the chord length. -/
noncomputable def coords_params (mi pt ti : ℕ) (chord : ℝ) (n : ℕ) : Coords where
  xu := (List.range n).map fun i =>
    xu_fun ((mi : ℝ) / 100) ((pt : ℝ) / 10) ((ti : ℝ) / 100) (stationX n i) * chord
  yu := (List.range n).map fun i =>
    yu_fun ((mi : ℝ) / 100) ((pt : ℝ) / 10) ((ti : ℝ) / 100) (stationX n i) * chord
  xl := (List.range n).map fun i =>
    xl_fun ((mi : ℝ) / 100) ((pt : ℝ) / 10) ((ti : ℝ) / 100) (stationX n i) * chord
  yl := (List.range n).map fun i =>
    yl_fun ((mi : ℝ) / 100) ((pt : ℝ) / 10) ((ti : ℝ) / 100) (stationX n i) * chord

/-- Source `naca_4digit_coordinates` (lines 39–97): parse the designation —
propagating its `ValueError` as `none` — then generate the scaled surface
arrays.  The function performs no validation of `chord` or `n`. -/
noncomputable def naca_4digit_coordinates (s : String) (chord : ℝ) (n : ℕ) :
    Option Coords :=
  (parse_naca_4digit s).map fun q => coords_params q.1 q.2.1 q.2.2 chord n

/-- Source lines 127 and 131: the DXF sink draws a closing segment between a
pair of edge points exactly when they differ by more than 0.001 output units
in x or in y. -/
def need_connecting_line (x1 y1 x2 y2 : ℝ) : Prop :=
  |x1 - x2| > 0.001 ∨ |y1 - y2| > 0.001

/-- Source lines 180–184: the validation performed by the CLI `main` before
calling the generator: chord must be positive and the point count at
least 10, each violation reported with its `ValueError` message. -/
noncomputable def main_validate (chord : ℝ) (num_points : ℤ) : Except String Unit :=
  if chord ≤ 0 then Except.error "Chord length must be positive"
  else if num_points < 10 then Except.error "Number of points must be at least 10"
  else Except.ok ()

theorem getD_map_range (f : ℕ → ℝ) {n i : ℕ} (hi : i < n) :
    ((List.range n).map f).getD i 0 = f i := by
  have hlen : i < ((List.range n).map f).length := by simp [hi]
  rw [List.getD_eq_getElem _ _ hlen]
  simp

theorem yc_fun_p0 (m x : ℝ) : yc_fun m 0 x = 0 := by
  simp [yc_fun]

theorem dyc_dx_fun_p0 (m x : ℝ) : dyc_dx_fun m 0 x = 0 := by
  simp [dyc_dx_fun]

theorem stationX_zero (n : ℕ) : stationX n 0 = 0 := by
  simp [stationX]

theorem stationX_last {n : ℕ} (hn : 2 ≤ n) : stationX n (n - 1) = 1 := by
  have hd : (0 : ℝ) < ((n - 1 : ℕ) : ℝ) := by
    exact_mod_cast Nat.pos_of_ne_zero (by omega)
  rw [stationX, mul_div_assoc, div_self hd.ne', mul_one, Real.cos_pi]
  norm_num

theorem stationX_mem_unit (n i : ℕ) : 0 ≤ stationX n i ∧ stationX n i ≤ 1 := by
  unfold stationX
  have h1 := Real.cos_le_one (Real.pi * i / ((n - 1 : ℕ) : ℝ))
  have h2 := Real.neg_one_le_cos (Real.pi * i / ((n - 1 : ℕ) : ℝ))
  constructor <;> linarith

theorem stationX_mono {n i j : ℕ} (hij : i ≤ j) (hj : j < n) :
    stationX n i ≤ stationX n j := by
  unfold stationX
  have hd : (0 : ℝ) ≤ ((n - 1 : ℕ) : ℝ) := Nat.cast_nonneg _
  have hcos : Real.cos (Real.pi * j / ((n - 1 : ℕ) : ℝ)) ≤
      Real.cos (Real.pi * i / ((n - 1 : ℕ) : ℝ)) := by
    rcases eq_or_lt_of_le hd with h0 | hdpos
    · rw [← h0]
      simp
    · apply Real.cos_le_cos_of_nonneg_of_le_pi
      · positivity
      · rw [div_le_iff₀ hdpos]
        have hj1 : (j : ℝ) ≤ ((n - 1 : ℕ) : ℝ) := by
          exact_mod_cast (by omega : j ≤ n - 1)
        exact mul_le_mul_of_nonneg_left hj1 Real.pi_pos.le
      · gcongr
  linarith

/-- C8: for every call with at least 2 points, the station sequence has the
requested length, every station lies in [0, 1], the sequence is
non-decreasing, the first station is exactly 0 and the last is exactly 1. -/
theorem C8_station_sequence (n : ℕ) (hn : 2 ≤ n) :
    (x_stations n).length = n ∧
    (∀ i, i < n → 0 ≤ stationX n i ∧ stationX n i ≤ 1) ∧
    (∀ i j, i ≤ j → j < n → stationX n i ≤ stationX n j) ∧
    stationX n 0 = 0 ∧ stationX n (n - 1) = 1 :=
  ⟨by simp [x_stations], fun i _ => stationX_mem_unit n i,
    fun _ _ hij hj => stationX_mono hij hj, stationX_zero n, stationX_last hn⟩

/-- Witness for C8 at the concrete point count 2. -/
theorem C8_station_sequence_witness :
    (x_stations 2).length = 2 ∧
    (∀ i, i < 2 → 0 ≤ stationX 2 i ∧ stationX 2 i ≤ 1) ∧
    (∀ i j, i ≤ j → j < 2 → stationX 2 i ≤ stationX 2 j) ∧
    stationX 2 0 = 0 ∧ stationX 2 (2 - 1) = 1 :=
  C8_station_sequence 2 (by norm_num)

/-- C4: for the symmetric designation `"0012"`, any positive chord and any
point count ≥ 2, the camber height and slope are exactly 0 at every sampled
station, and the upper y-value is the exact negative of the lower y-value at
every index. -/
theorem C4_symmetric_0012 (chord : ℝ) (n i : ℕ)
    (_hc : 0 < chord) (_hn : 2 ≤ n) (hi : i < n) :
    yc_fun 0 0 (stationX n i) = 0 ∧ dyc_dx_fun 0 0 (stationX n i) = 0 ∧
    ∃ q, naca_4digit_coordinates "0012" chord n = some q ∧
      q.yu.getD i 0 = -q.yl.getD i 0 := by
  have hparse : parse_naca_4digit "0012" = some (0, 0, 12) := by decide
  refine ⟨by simp [yc_fun], by simp [dyc_dx_fun],
    coords_params 0 0 12 chord n, ?_, ?_⟩
  · simp [naca_4digit_coordinates, hparse]
  · simp only [coords_params]
    rw [getD_map_range _ hi, getD_map_range _ hi]
    simp [yu_fun, yl_fun, yc_fun]

/-- Witness for C4 at chord 1, point count 2, index 0. -/
theorem C4_symmetric_0012_witness :
    yc_fun 0 0 (stationX 2 0) = 0 ∧ dyc_dx_fun 0 0 (stationX 2 0) = 0 ∧
    ∃ q, naca_4digit_coordinates "0012" 1 2 = some q ∧
      q.yu.getD 0 0 = -q.yl.getD 0 0 :=
  C4_symmetric_0012 1 2 0 (by norm_num) (by norm_num) (by norm_num)

/-- C6: a designation with camber position digit 0 but nonzero camber digit
is handled as the symmetric degenerate case: the generated coordinates
coincide with those of the designation with camber digit 0, and the camber
height and slope are 0 at every station. -/
theorem C6_degenerate_camber (mi ti : ℕ) (chord : ℝ) (n : ℕ) (_hm : 0 < mi) :
    coords_params mi 0 ti chord n = coords_params 0 0 ti chord n ∧
    ∀ i, i < n → yc_fun ((mi : ℝ) / 100) 0 (stationX n i) = 0 ∧
      dyc_dx_fun ((mi : ℝ) / 100) 0 (stationX n i) = 0 := by
  refine ⟨?_, fun i _ => ⟨yc_fun_p0 _ _, dyc_dx_fun_p0 _ _⟩⟩
  unfold coords_params
  simp [xu_fun, yu_fun, xl_fun, yl_fun, theta_fun, yc_fun_p0, dyc_dx_fun_p0]

/-- Witness for C6 at camber digit 2, thickness 12, chord 1, point count 2. -/
theorem C6_degenerate_camber_witness :
    coords_params 2 0 12 1 2 = coords_params 0 0 12 1 2 ∧
    ∀ i, i < 2 → yc_fun (((2 : ℕ) : ℝ) / 100) 0 (stationX 2 i) = 0 ∧
      dyc_dx_fun (((2 : ℕ) : ℝ) / 100) 0 (stationX 2 i) = 0 :=
  C6_degenerate_camber 2 12 1 2 (by norm_num)

/-- Elementwise scaling of all four coordinate arrays by a factor `k`. -/
noncomputable def scale_coords (k : ℝ) (q : Coords) : Coords where
  xu := q.xu.map fun v => k * v
  yu := q.yu.map fun v => k * v
  xl := q.xl.map fun v => k * v
  yl := q.yl.map fun v => k * v

/-- C7: scaling the chord by `k` scales every generated coordinate by
exactly `k` (linearity of the generator in the chord length). -/
theorem C7_chord_linearity (s : String) (c k : ℝ) (n : ℕ)
    (_hc : 0 < c) (_hk : 0 < k) :
    naca_4digit_coordinates s (k * c) n =
      (naca_4digit_coordinates s c n).map (scale_coords k) := by
  unfold naca_4digit_coordinates
  cases hp : parse_naca_4digit s with
  | none => simp
  | some q =>
    simp only [Option.map_some']
    refine congrArg some ?_
    unfold coords_params scale_coords
    dsimp only
    rw [Coords.mk.injEq]
    refine ⟨?_, ?_, ?_, ?_⟩ <;> rw [List.map_map] <;>
      exact List.map_congr_left fun i _ => by simp only [Function.comp_apply]; ring

/-- Witness for C7 at designation `"2412"`, chord 3, factor 2, 2 points. -/
theorem C7_chord_linearity_witness :
    naca_4digit_coordinates "2412" (2 * 3) 2 =
      (naca_4digit_coordinates "2412" 3 2).map (scale_coords 2) :=
  C7_chord_linearity "2412" 3 2 2 (by norm_num) (by norm_num)

/-- C1 counterexample: the generator itself does not fail on a non-positive
chord or on a point count below 2 — `naca_4digit_coordinates` succeeds at
chord −5 with 100 points and at chord 10 with 1 point, the two inputs the
claim says must fail. -/
theorem C1_counterexample :
    (naca_4digit_coordinates "2412" (-5) 100).isSome = true ∧
    (naca_4digit_coordinates "2412" 10 1).isSome = true := by
  have hp : parse_naca_4digit "2412" = some (2, 4, 12) := by decide
  constructor <;> simp [naca_4digit_coordinates, hp]

/-- C1 (amended): the generator performs no chord or point-count validation —
it succeeds for every chord and every point count once the designation
parses.  The chord and resolution checks live in the CLI `main`, which
rejects chord ≤ 0 with "Chord length must be positive" (so chord −5 with 100
points) and point counts below 10 with "Number of points must be at least
10" (so chord 10 with 1 point). -/
theorem C1_validation_in_cli :
    (∀ (chord : ℝ) (n : ℕ), (naca_4digit_coordinates "2412" chord n).isSome = true) ∧
    main_validate (-5) 100 = Except.error "Chord length must be positive" ∧
    main_validate 10 1 = Except.error "Number of points must be at least 10" := by
  have hp : parse_naca_4digit "2412" = some (2, 4, 12) := by decide
  refine ⟨fun chord n => by simp [naca_4digit_coordinates, hp], ?_, ?_⟩
  · rw [main_validate, if_pos (by norm_num)]
  · rw [main_validate, if_neg (by norm_num), if_pos (by norm_num)]

/-- C5: for a cambered designation with camber position strictly inside the
chord, the forward and aft camber branches agree at the boundary station
`x = p` (both heights equal the normalized camber `m/100`), and the two
slope formulas both vanish there, so the camber line and its slope are
continuous at the branch boundary. -/
theorem C5_camber_branch_boundary (mi pt : ℕ) (_hm : 0 < mi)
    (h0 : 0 < (pt : ℝ) / 10) (h1 : (pt : ℝ) / 10 < 1) :
    yc_fwd ((mi : ℝ) / 100) ((pt : ℝ) / 10) ((pt : ℝ) / 10) = (mi : ℝ) / 100 ∧
    yc_aft ((mi : ℝ) / 100) ((pt : ℝ) / 10) ((pt : ℝ) / 10) = (mi : ℝ) / 100 ∧
    dyc_fwd ((mi : ℝ) / 100) ((pt : ℝ) / 10) ((pt : ℝ) / 10) = 0 ∧
    dyc_aft ((mi : ℝ) / 100) ((pt : ℝ) / 10) ((pt : ℝ) / 10) = 0 := by
  have hpt : (pt : ℝ) ≠ 0 := by
    intro h
    rw [h] at h0
    norm_num at h0
  have h10 : (10 : ℝ) - (pt : ℝ) ≠ 0 := by
    have : (pt : ℝ) < 10 := by linarith
    intro h
    linarith
  refine ⟨?_, ?_, ?_, ?_⟩
  · rw [yc_fwd]
    field_simp
    ring
  · rw [yc_aft]
    field_simp
    ring
  · rw [dyc_fwd]
    ring
  · rw [dyc_aft]
    ring

/-- Witness for C5 at camber digit 2, position digit 4. -/
theorem C5_camber_branch_boundary_witness :
    yc_fwd ((2 : ℕ) / 100 : ℝ) (((4 : ℕ) : ℝ) / 10) (((4 : ℕ) : ℝ) / 10) = ((2 : ℕ) : ℝ) / 100 ∧
    yc_aft (((2 : ℕ) : ℝ) / 100) (((4 : ℕ) : ℝ) / 10) (((4 : ℕ) : ℝ) / 10) = ((2 : ℕ) : ℝ) / 100 ∧
    dyc_fwd (((2 : ℕ) : ℝ) / 100) (((4 : ℕ) : ℝ) / 10) (((4 : ℕ) : ℝ) / 10) = 0 ∧
    dyc_aft (((2 : ℕ) : ℝ) / 100) (((4 : ℕ) : ℝ) / 10) (((4 : ℕ) : ℝ) / 10) = 0 :=
  C5_camber_branch_boundary 2 4 (by norm_num) (by norm_num) (by norm_num)

theorem naca_poly_lower {u : ℝ} (hu0 : 0 ≤ u) (hu1 : u ≤ 1) :
    0.0021 ≤ 0.2969 - 0.1260 * u - 0.3516 * u ^ 3 + 0.2843 * u ^ 5 - 0.1015 * u ^ 7 := by
  have h3 : u ^ 3 ≤ u := by
    calc u ^ 3 ≤ u ^ 1 := pow_le_pow_of_le_one hu0 hu1 (by norm_num)
    _ = u := pow_one u
  have h4 : u ^ 4 ≤ u ^ 2 := pow_le_pow_of_le_one hu0 hu1 (by norm_num)
  have h2 : u ^ 2 ≤ 1 := pow_le_one₀ hu0 hu1
  have h5 : (0 : ℝ) ≤ u ^ 5 := by positivity
  have h6 : (0 : ℝ) ≤ u ^ 6 := by positivity
  have hq : 0 < 0.1015 * u ^ 6 + 0.1015 * u ^ 5 - 0.1828 * u ^ 4 - 0.1828 * u ^ 3
      + 0.1688 * u ^ 2 + 0.1688 * u + 0.2948 := by
    linarith
  have hfac : 0.2969 - 0.1260 * u - 0.3516 * u ^ 3 + 0.2843 * u ^ 5 - 0.1015 * u ^ 7
      - 0.0021 = (1 - u) * (0.1015 * u ^ 6 + 0.1015 * u ^ 5 - 0.1828 * u ^ 4
      - 0.1828 * u ^ 3 + 0.1688 * u ^ 2 + 0.1688 * u + 0.2948) := by ring
  have hnn := mul_nonneg (by linarith : (0 : ℝ) ≤ 1 - u) hq.le
  linarith

/-- The half-thickness is strictly positive at every station in (0, 1]
whenever the thickness parameter is positive. -/
theorem yt_fun_pos {t x : ℝ} (ht : 0 < t) (hx0 : 0 < x) (hx1 : x ≤ 1) :
    0 < yt_fun t x := by
  unfold yt_fun
  set u := Real.sqrt x with hu
  have hu0 : 0 < u := Real.sqrt_pos.mpr hx0
  have hu1 : u ≤ 1 := by
    rw [hu]
    exact (Real.sqrt_le_sqrt hx1).trans_eq Real.sqrt_one
  have hx : x = u ^ 2 := (Real.sq_sqrt hx0.le).symm
  rw [hx]
  have key : 0 < u * (0.2969 - 0.1260 * u - 0.3516 * u ^ 3 + 0.2843 * u ^ 5
      - 0.1015 * u ^ 7) :=
    mul_pos hu0 (by linarith [naca_poly_lower hu0.le hu1])
  nlinarith [mul_pos (mul_pos (show (0 : ℝ) < 5 by norm_num) ht) key]

theorem yt_fun_zero (t : ℝ) : yt_fun t 0 = 0 := by
  rw [yt_fun, Real.sqrt_zero]
  ring

theorem yt_fun_one (t : ℝ) : yt_fun t 1 = 5 * t * 0.0021 := by
  rw [yt_fun, Real.sqrt_one]
  ring

/-- For the symmetric parameters `m = p = 0` the surface offset is purely
vertical: the x-coordinates are the stations themselves and the y-coordinates
are plus/minus the half-thickness. -/
theorem surf_eval_symmetric (t x : ℝ) :
    xu_fun 0 0 t x = x ∧ yu_fun 0 0 t x = yt_fun t x ∧
    xl_fun 0 0 t x = x ∧ yl_fun 0 0 t x = -yt_fun t x := by
  unfold xu_fun yu_fun xl_fun yl_fun theta_fun
  simp [yc_fun, dyc_dx_fun, Real.arctan_zero]

theorem stationX_pos {n i : ℕ} (hn : 2 ≤ n) (hi0 : 0 < i) (hin : i < n) :
    0 < stationX n i := by
  unfold stationX
  have hd : (0 : ℝ) < ((n - 1 : ℕ) : ℝ) := by
    exact_mod_cast Nat.pos_of_ne_zero (by omega)
  have hipos : (0 : ℝ) < (i : ℝ) := by exact_mod_cast hi0
  have hang0 : 0 < Real.pi * i / ((n - 1 : ℕ) : ℝ) :=
    div_pos (mul_pos Real.pi_pos hipos) hd
  have hangpi : Real.pi * i / ((n - 1 : ℕ) : ℝ) ≤ Real.pi := by
    rw [div_le_iff₀ hd]
    have hle : (i : ℝ) ≤ ((n - 1 : ℕ) : ℝ) := by
      exact_mod_cast (by omega : i ≤ n - 1)
    exact mul_le_mul_of_nonneg_left hle Real.pi_pos.le
  have hcos : Real.cos (Real.pi * i / ((n - 1 : ℕ) : ℝ)) < 1 := by
    have hlt := Real.strictAntiOn_cos (Set.mem_Icc.mpr ⟨le_refl 0, Real.pi_pos.le⟩)
      (Set.mem_Icc.mpr ⟨hang0.le, hangpi⟩) hang0
    rwa [Real.cos_zero] at hlt
  linarith

theorem coords_params_xu_getD (mi pt ti : ℕ) (chord : ℝ) {n i : ℕ} (hi : i < n) :
    (coords_params mi pt ti chord n).xu.getD i 0 =
      xu_fun ((mi : ℝ) / 100) ((pt : ℝ) / 10) ((ti : ℝ) / 100) (stationX n i) * chord := by
  unfold coords_params
  exact getD_map_range _ hi

theorem coords_params_yu_getD (mi pt ti : ℕ) (chord : ℝ) {n i : ℕ} (hi : i < n) :
    (coords_params mi pt ti chord n).yu.getD i 0 =
      yu_fun ((mi : ℝ) / 100) ((pt : ℝ) / 10) ((ti : ℝ) / 100) (stationX n i) * chord := by
  unfold coords_params
  exact getD_map_range _ hi

theorem coords_params_xl_getD (mi pt ti : ℕ) (chord : ℝ) {n i : ℕ} (hi : i < n) :
    (coords_params mi pt ti chord n).xl.getD i 0 =
      xl_fun ((mi : ℝ) / 100) ((pt : ℝ) / 10) ((ti : ℝ) / 100) (stationX n i) * chord := by
  unfold coords_params
  exact getD_map_range _ hi

theorem coords_params_yl_getD (mi pt ti : ℕ) (chord : ℝ) {n i : ℕ} (hi : i < n) :
    (coords_params mi pt ti chord n).yl.getD i 0 =
      yl_fun ((mi : ℝ) / 100) ((pt : ℝ) / 10) ((ti : ℝ) / 100) (stationX n i) * chord := by
  unfold coords_params
  exact getD_map_range _ hi

/-- C9: for designation `"2412"`, chord 100 and 100 points, the upper and
lower leading-edge points (index 0) coincide within 0.001 units, and at
every interior station the upper y-value strictly exceeds the lower
y-value. -/
theorem C9_profile_2412 (i : ℕ) (hi0 : 0 < i) (hi99 : i < 99) :
    ∃ q, naca_4digit_coordinates "2412" 100 100 = some q ∧
      |q.xu.getD 0 0 - q.xl.getD 0 0| ≤ 0.001 ∧
      |q.yu.getD 0 0 - q.yl.getD 0 0| ≤ 0.001 ∧
      q.yl.getD i 0 < q.yu.getD i 0 := by
  have hparse : parse_naca_4digit "2412" = some (2, 4, 12) := by decide
  refine ⟨coords_params 2 4 12 100 100,
    by simp [naca_4digit_coordinates, hparse], ?_, ?_, ?_⟩
  · rw [coords_params_xu_getD _ _ _ _ (by norm_num),
      coords_params_xl_getD _ _ _ _ (by norm_num), stationX_zero]
    norm_num [xu_fun, xl_fun, yt_fun_zero]
  · rw [coords_params_yu_getD _ _ _ _ (by norm_num),
      coords_params_yl_getD _ _ _ _ (by norm_num), stationX_zero]
    norm_num [yu_fun, yl_fun, yc_fun, yc_fwd, yt_fun_zero]
  · rw [coords_params_yl_getD _ _ _ _ (by omega),
      coords_params_yu_getD _ _ _ _ (by omega)]
    have hx0 : 0 < stationX 100 i := stationX_pos (by norm_num) hi0 (by omega)
    have hx1 : stationX 100 i ≤ 1 := (stationX_mem_unit 100 i).2
    have hyt : 0 < yt_fun (((12 : ℕ) : ℝ) / 100) (stationX 100 i) :=
      yt_fun_pos (by norm_num) hx0 hx1
    have hcos := Real.cos_arctan_pos
      (dyc_dx_fun (((2 : ℕ) : ℝ) / 100) (((4 : ℕ) : ℝ) / 10) (stationX 100 i))
    unfold yu_fun yl_fun theta_fun
    nlinarith [mul_pos hyt hcos]

/-- Witness for C9 at the interior station index 1. -/
theorem C9_profile_2412_witness :
    ∃ q, naca_4digit_coordinates "2412" 100 100 = some q ∧
      |q.xu.getD 0 0 - q.xl.getD 0 0| ≤ 0.001 ∧
      |q.yu.getD 0 0 - q.yl.getD 0 0| ≤ 0.001 ∧
      q.yl.getD 1 0 < q.yu.getD 1 0 :=
  C9_profile_2412 1 (by norm_num) (by norm_num)

/-- C10 (amended): for every designation with positive thickness, positive
chord and at least 2 points, the last station is exactly 1, the normalized
half-thickness there equals `5·(t/100)·0.0021` and is nonzero, so the upper
and lower trailing-edge points never coincide (the profile is open at the
trailing edge); the sink's closing-segment condition is triggered there
whenever the resulting gap exceeds the sink's absolute 0.001-unit
tolerance — as at designation `"0012"` with chord 100 — but not for
arbitrarily small chords. -/
theorem C10_trailing_edge_open (mi pt ti : ℕ) (chord : ℝ) (n : ℕ)
    (ht : 0 < ti) (hc : 0 < chord) (hn : 2 ≤ n) :
    stationX n (n - 1) = 1 ∧
    yt_fun ((ti : ℝ) / 100) 1 = 5 * ((ti : ℝ) / 100) * 0.0021 ∧
    0 < yt_fun ((ti : ℝ) / 100) 1 ∧
    (coords_params mi pt ti chord n).yl.getD (n - 1) 0 <
      (coords_params mi pt ti chord n).yu.getD (n - 1) 0 ∧
    need_connecting_line ((coords_params 0 0 12 100 2).xu.getD 1 0)
      ((coords_params 0 0 12 100 2).yu.getD 1 0)
      ((coords_params 0 0 12 100 2).xl.getD 1 0)
      ((coords_params 0 0 12 100 2).yl.getD 1 0) := by
  have hti : (0 : ℝ) < (ti : ℝ) / 100 := by
    have h1 : (0 : ℝ) < (ti : ℝ) := by exact_mod_cast ht
    linarith
  have hyt1 : 0 < yt_fun ((ti : ℝ) / 100) 1 := by
    rw [yt_fun_one]
    nlinarith
  refine ⟨stationX_last hn, yt_fun_one _, hyt1, ?_, ?_⟩
  · rw [coords_params_yl_getD _ _ _ _ (by omega),
      coords_params_yu_getD _ _ _ _ (by omega), stationX_last hn]
    have hcos := Real.cos_arctan_pos
      (dyc_dx_fun ((mi : ℝ) / 100) ((pt : ℝ) / 10) 1)
    unfold yu_fun yl_fun theta_fun
    nlinarith [mul_pos (mul_pos hyt1 hcos) hc]
  · have h1 : stationX 2 1 = 1 := stationX_last (by norm_num)
    rw [coords_params_xu_getD _ _ _ _ (by norm_num),
      coords_params_yu_getD _ _ _ _ (by norm_num),
      coords_params_xl_getD _ _ _ _ (by norm_num),
      coords_params_yl_getD _ _ _ _ (by norm_num), h1]
    simp only [Nat.cast_zero, zero_div, Nat.cast_ofNat]
    obtain ⟨e1, e2, e3, e4⟩ := surf_eval_symmetric ((12 : ℝ) / 100) 1
    rw [need_connecting_line, e1, e2, e3, e4, yt_fun_one]
    refine Or.inr ?_
    rw [gt_iff_lt, lt_abs]
    left
    norm_num

/-- Witness for the amended C10 at thickness 12, chord 1, 2 points. -/
theorem C10_trailing_edge_open_witness :
    stationX 2 (2 - 1) = 1 ∧
    yt_fun (((12 : ℕ) : ℝ) / 100) 1 = 5 * (((12 : ℕ) : ℝ) / 100) * 0.0021 ∧
    0 < yt_fun (((12 : ℕ) : ℝ) / 100) 1 ∧
    (coords_params 0 0 12 1 2).yl.getD (2 - 1) 0 <
      (coords_params 0 0 12 1 2).yu.getD (2 - 1) 0 ∧
    need_connecting_line ((coords_params 0 0 12 100 2).xu.getD 1 0)
      ((coords_params 0 0 12 100 2).yu.getD 1 0)
      ((coords_params 0 0 12 100 2).xl.getD 1 0)
      ((coords_params 0 0 12 100 2).yl.getD 1 0) :=
  C10_trailing_edge_open 0 0 12 1 2 (by norm_num) (by norm_num) (by norm_num)

/-- C10 counterexample: at designation `"0012"` (thickness 12 > 0), chord
1/10 > 0 and 2 ≥ 2 points, the trailing-edge gap is 0.000252 units — below
the sink's absolute 0.001-unit tolerance — so the closing-segment condition
is NOT triggered, refuting the claim that it is triggered for every positive
thickness, chord and point count ≥ 2. -/
theorem C10_counterexample :
    parse_naca_4digit "0012" = some (0, 0, 12) ∧
    ∃ q, naca_4digit_coordinates "0012" (1 / 10) 2 = some q ∧
      ¬ need_connecting_line (q.xu.getD 1 0) (q.yu.getD 1 0)
        (q.xl.getD 1 0) (q.yl.getD 1 0) := by
  have hparse : parse_naca_4digit "0012" = some (0, 0, 12) := by decide
  refine ⟨hparse, coords_params 0 0 12 (1 / 10) 2,
    by simp [naca_4digit_coordinates, hparse], ?_⟩
  have h1 : stationX 2 1 = 1 := stationX_last (by norm_num)
  rw [coords_params_xu_getD _ _ _ _ (by norm_num),
    coords_params_yu_getD _ _ _ _ (by norm_num),
    coords_params_xl_getD _ _ _ _ (by norm_num),
    coords_params_yl_getD _ _ _ _ (by norm_num), h1]
  simp only [Nat.cast_zero, zero_div, Nat.cast_ofNat]
  obtain ⟨e1, e2, e3, e4⟩ := surf_eval_symmetric ((12 : ℝ) / 100) 1
  rw [need_connecting_line, e1, e2, e3, e4, yt_fun_one]
  push_neg
  constructor
  · rw [sub_self, abs_zero]
    norm_num
  · rw [abs_of_pos (by norm_num)]
    norm_num
